import Mathlib

/-!
Verification of `app.py`, a PDF-to-audiobook converter built on the
edge-tts streaming client.  The development shallowly embeds the
program's components:

* the streaming synthesis session `stream_audio` (the try/except/with
  block at lines 136-186 of `app.py`), modelled as a pure function over
  an explicit trace of stream events and an optional terminating fault;
* the parameter validator `validate_voice_params` (lines 52-70), with
  Python's `re.match` semantics for the patterns involved, including
  the fact that an unanchored `$` also matches just before a single
  trailing newline;
* the text extractor `extract_clean_text` (lines 99-134) over an
  abstract page list;
* the voice-catalog lister `list_available_voices` (lines 72-93);
* the orchestrator `main` (lines 192-246), as `run_conversion` /
  `run_main`, mapping component outcomes to process exit codes.

Python exceptions are modelled by `PyExc`: the three edge-tts
network/protocol exception classes caught by the first `except` clause,
`ValueError` (caught separately in `main`), any other ordinary
`Exception`, and the exiting `BaseException`-only classes
(`KeyboardInterrupt`, `SystemExit`, `asyncio.CancelledError`) that no
`except Exception` clause catches.  Audio payloads are byte lists
(`List Nat`); file-system state is the optional content of the single
output file.
-/

deriving instance DecidableEq for Except

/-- Python exception classes relevant to `app.py`.  The first three are
the edge-tts exceptions named in the tuple of the first `except` clause
of `stream_audio`; `valueError` and `otherError` are ordinary
`Exception` subclasses; `exiting` stands for `BaseException`-only
classes that `except Exception` does not catch. -/
inductive PyExc where
  | noAudioReceived
  | unexpectedResponse
  | webSocketError
  | valueError (msg : String)
  | otherError (msg : String)
  | exiting (msg : String)
deriving DecidableEq, Repr

/-- The exception classes caught by
`except (NoAudioReceived, UnexpectedResponse, WebSocketError)`. -/
def PyExc.isNetworkFault : PyExc → Bool
  | .noAudioReceived => true
  | .unexpectedResponse => true
  | .webSocketError => true
  | _ => false

/-- Exceptions that are not `Exception` subclasses: they escape every
handler in `app.py`. -/
def PyExc.isExiting : PyExc → Bool
  | .exiting _ => true
  | _ => false

/-- One element yielded by `communicate.stream()`: the loop body checks
`chunk["type"] == "audio"`, then `chunk["type"] == "error"`, and
silently ignores any other chunk type (edge-tts also yields
word-boundary metadata chunks). -/
inductive SessionEvent where
  | audio (data : List Nat)
  | error (msg : String)
  | other (ty : String)
deriving DecidableEq, Repr

/-- The `async for` loop of `stream_audio` (lines 157-169): the running
file content and the `total_bytes` counter; an audio chunk appends its
payload to the file and adds its length to the counter, an error chunk
is only logged, any other chunk is ignored. -/
def loopChunks (content : List Nat) (total : Nat) :
    List SessionEvent → List Nat × Nat
  | [] => (content, total)
  | .audio d :: rest => loopChunks (content ++ d) (total + d.length) rest
  | .error _ :: rest => loopChunks content total rest
  | .other _ :: rest => loopChunks content total rest

/-- Result of one streaming session: `outcome` is `.ok b` when the
function returns the boolean `b` and `.error e` when an exception `e`
propagates to the caller; `file` is the output file's content after the
session (`none` = the file does not exist); `totalBytes` is the byte
counter; `handleOpen` records whether the file handle is still open
when control leaves the function. -/
structure SessionResult where
  outcome : Except PyExc Bool
  file : Option (List Nat)
  totalBytes : Nat
  handleOpen : Bool
deriving Repr

/-- The two `except` clauses of `stream_audio` (lines 177-186), applied
to an exception `e` with the output file in state `file` and counter
`total`.  The network/protocol clause deletes the output file if it
exists and returns `False`; the generic `except Exception` clause
returns `False` leaving the file alone; an exiting exception matches
neither clause and propagates.  In every case the `with` block has
already closed the file handle. -/
def handleSessionExc (e : PyExc) (file : Option (List Nat)) (total : Nat) :
    SessionResult :=
  if e.isNetworkFault then
    { outcome := .ok false, file := none, totalBytes := total, handleOpen := false }
  else if e.isExiting then
    { outcome := .error e, file := file, totalBytes := total, handleOpen := false }
  else
    { outcome := .ok false, file := file, totalBytes := total, handleOpen := false }

/-- Model of `stream_audio` (lines 136-186).  `pre` is the output file's state
before the call; `openExc` is `some e` when `open(config.output_file,
"wb")` itself raises `e` (the file is then left in state `pre`);
otherwise the open truncates/creates the file, the loop consumes
`events` in arrival order, and then the stream either ends normally
(`streamFault = none`, the function returns `True`) or raises
`streamFault = some e`, which is dispatched to the `except` clauses.
A fault raised mid-stream is represented by listing only the chunks
delivered before it. -/
def stream_audio (pre : Option (List Nat)) (openExc : Option PyExc)
    (events : List SessionEvent) (streamFault : Option PyExc) :
    SessionResult :=
  match openExc with
  | some e => handleSessionExc e pre 0
  | none =>
    let st := loopChunks [] 0 events
    match streamFault with
    | none =>
      { outcome := .ok true, file := some st.1, totalBytes := st.2,
        handleOpen := false }
    | some e => handleSessionExc e (some st.1) st.2

/-- Unfolding lemma: the loop with accumulators equals the
accumulator-free run with the results appended/added. -/
theorem loopChunks_eq (events : List SessionEvent) :
    ∀ (content : List Nat) (total : Nat),
      loopChunks content total events =
        (content ++ (loopChunks [] 0 events).1,
         total + (loopChunks [] 0 events).2) := by
  induction events with
  | nil => intro c t; simp [loopChunks]
  | cons e rest ih =>
    intro c t
    cases e with
    | audio d =>
      simp only [loopChunks, List.nil_append, Nat.zero_add]
      rw [ih (c ++ d), ih d]
      simp [List.append_assoc, Nat.add_assoc]
    | error m => simp only [loopChunks]; rw [ih c]
    | other ty => simp only [loopChunks]; rw [ih c]

/-! ### Parameter validator (`validate_voice_params`, lines 52-70) -/

/-- Tail of the `rate`/`volume` pattern `^[+-]\d+%$`. -/
def pctSuffix : List Char := ['%']

/-- Tail of the `pitch` pattern `^[+-]\d+Hz$`. -/
def hzSuffix : List Char := ['H', 'z']

/-- Python regex semantics of `\d+S$` applied to `cs` (with `S` a
digit-free literal suffix): some nonempty digit run followed by `S` at
the end of the string.  A bare `$` in Python (no MULTILINE) matches at
the end of the string and also just before a single newline ending the
string, hence the `suffix ++ [newline]` alternative.  Digits are
modelled as the ASCII decimal digits; Python's `\d` additionally
matches non-ASCII Unicode decimal digits, which do not occur in any
string considered here. -/
def digitsThenSuffix (suffix : List Char) : List Char → Bool
  | [] => false
  | c :: rest =>
    c.isDigit && (rest == suffix || rest == suffix ++ ['\n'] ||
      digitsThenSuffix suffix rest)

/-- Python `re.match(r"^[+-]\d+S$", cs)` as a Boolean: a sign character
followed by one or more digits followed by `S`, with the `$`-newline
allowance of `digitsThenSuffix`. -/
def re_match (suffix : List Char) (cs : List Char) : Bool :=
  match cs with
  | [] => false
  | c :: rest => (c == '+' || c == '-') && digitsThenSuffix suffix rest

/-- The `ValueError` raised by `validate_voice_params`: its message
interpolates the offending parameter's name, the rejected value, and
the help text with a format example. -/
structure ValidationError where
  param : String
  value : String
  help : String
deriving DecidableEq, Repr

def rateHelp : String := "Ej: +10%, -15%"

def volumeHelp : String := "Ej: +20%, -10%"

def pitchHelp : String := "Ej: +5Hz, -2Hz"

/-- Model of `validate_voice_params` (lines 52-70): checks `rate`, `volume`,
`pitch` in that order against the patterns `^[+-]\d+%$`, `^[+-]\d+%$`,
`^[+-]\d+Hz$` and raises a `ValueError` naming the first parameter
whose value does not match. -/
def validate_voice_params (rate volume pitch : String) :
    Except ValidationError Unit :=
  if re_match pctSuffix rate.data = false then
    .error { param := "rate", value := rate, help := rateHelp }
  else if re_match pctSuffix volume.data = false then
    .error { param := "volume", value := volume, help := volumeHelp }
  else if re_match hzSuffix pitch.data = false then
    .error { param := "pitch", value := pitch, help := pitchHelp }
  else .ok ()

/-! ### Text extractor (`extract_clean_text`, lines 99-134) -/

/-- Modelled from the spec: the sanitizer imported from the external
edge-tts library (`remove_incompatible_characters`) — "characters
incompatible with downstream synthesis removed"; incompatible control
characters are replaced by a space. -/
def remove_incompatible_characters (s : String) : String :=
  ⟨s.data.map fun c =>
    if c.toNat ≤ 8 ∨ (11 ≤ c.toNat ∧ c.toNat ≤ 12) ∨
        (14 ≤ c.toNat ∧ c.toNat ≤ 31) then ' ' else c⟩

/-- Python `\s` over the ASCII range: space, tab, newline, carriage
return, vertical tab, form feed. -/
def isPyWs (c : Char) : Bool :=
  c == ' ' || c == '\t' || c == '\n' || c == '\r' ||
  c == Char.ofNat 11 || c == Char.ofNat 12

/-- Python `re.sub(r"\s+", " ", ·)`: every maximal whitespace run becomes one
space.  The Boolean argument records whether the previous character was
part of a whitespace run. -/
def squashWs : Bool → List Char → List Char
  | _, [] => []
  | prevWs, c :: rest =>
    if isPyWs c then
      if prevWs then squashWs true rest else ' ' :: squashWs true rest
    else c :: squashWs false rest

/-- Python `str.strip()`: drop leading and trailing whitespace. -/
def pyStrip (cs : List Char) : List Char :=
  ((cs.dropWhile isPyWs).reverse.dropWhile isPyWs).reverse

/-- Line 134: `re.sub(r"\s+", " ", full_text).strip()`. -/
def normalizeWs (s : String) : String := ⟨pyStrip (squashWs false s.data)⟩

/-- Model of `extract_clean_text` (lines 99-134).  `fileExists` models
`file_path.exists()`; `reader` is the outcome of constructing
`PyPDF2.PdfReader` and extracting each page's text (a page with no
extractable text yields `""`, which is falsy in Python and skipped).
An empty page list raises `ValueError("PDF vacío")`; any exception from
the reader is logged and re-raised.  On success the per-page cleaned
texts are joined with a space and whitespace-normalized. -/
def extract_clean_text (fileExists : Bool)
    (reader : Except PyExc (List String)) : Except PyExc String :=
  if fileExists = false then
    .error (.otherError "FileNotFoundError")
  else
    match reader with
    | .error e => .error e
    | .ok pages =>
      if pages.length = 0 then .error (.valueError "PDF vacío")
      else
        let buffer := pages.filterMap fun raw =>
          if raw = "" then none else some (remove_incompatible_characters raw)
        .ok (normalizeWs (String.intercalate " " buffer))

/-! ### Voice catalog lister (`list_available_voices`, lines 72-93) -/

/-- One entry of the remote voice directory; the fields the lister
reads are `ShortName`, `Gender`, `Locale`. -/
structure Voice where
  shortName : String
  gender : String
  locale : String
deriving DecidableEq, Repr

/-- Python `needle in hay` on strings: `needle` occurs as a contiguous
substring of `hay`. -/
def hasSubstr (needle : List Char) : List Char → Bool
  | [] => needle == []
  | c :: rest => List.isPrefixOf needle (c :: rest) || hasSubstr needle rest

/-- Model of `list_available_voices` (lines 72-93).  `query` is the outcome of
`edge_tts.list_voices()`.  On success the function prints the table of
voices whose locale starts with the given prefix and whose short name
contains "Neural"; we return those rows.  Any ordinary exception is
caught by `except Exception`, logged, and the function returns normally
(no rows were printed); an exiting exception propagates. -/
def list_available_voices (localePfx : String)
    (query : Except PyExc (List Voice)) : Except PyExc (List Voice) :=
  match query with
  | .ok voices =>
    .ok (voices.filter fun v =>
      v.locale.startsWith localePfx && hasSubstr "Neural".data v.shortName.data)
  | .error e => if e.isExiting then .error e else .ok []

/-! ### CLI orchestrator (`main`, lines 192-246) -/

/-- The environment a conversion run interacts with: the input file's
existence and readable pages (for `extract_clean_text`), and the
pre-existing output file, the possible `open` failure, the stream
events and the possible stream fault (for `stream_audio`). -/
structure ConvWorld where
  fileExists : Bool
  reader : Except PyExc (List String)
  preOutFile : Option (List Nat)
  openExc : Option PyExc
  events : List SessionEvent
  streamFault : Option PyExc

/-- Outcome of one `main` run: `exit` is `.ok code` when the process
terminates with that exit code and `.error e` when an exiting exception
escapes `main`; `networkCalls` counts synthesis connections opened;
`outFile` is the output file's state afterwards; `synthesisInvoked`
records whether `stream_audio` was reached. -/
structure MainResult where
  exit : Except PyExc Nat
  networkCalls : Nat
  outFile : Option (List Nat)
  synthesisInvoked : Bool
deriving Repr

/-- The conversion branch of `main` (lines 214-246).  A `ValueError`
from validation is caught by `except ValueError` and mapped to
`sys.exit(1)` before any synthesis object exists.  An ordinary
exception from extraction is caught (`except ValueError` or
`except Exception`) and mapped to exit 1.  Empty extracted text logs a
warning and returns (exit 0) without synthesis.  Otherwise
`stream_audio` runs: returning `False` triggers `sys.exit(1)` (a
`SystemExit`, caught by no clause), returning `True` falls through to a
normal return (exit 0), and an exiting exception escapes. -/
def run_conversion (w : ConvWorld) (rate volume pitch : String) :
    MainResult :=
  match validate_voice_params rate volume pitch with
  | .error _ =>
    { exit := .ok 1, networkCalls := 0, outFile := w.preOutFile,
      synthesisInvoked := false }
  | .ok _ =>
    match extract_clean_text w.fileExists w.reader with
    | .error e =>
      if e.isExiting then
        { exit := .error e, networkCalls := 0, outFile := w.preOutFile,
          synthesisInvoked := false }
      else
        { exit := .ok 1, networkCalls := 0, outFile := w.preOutFile,
          synthesisInvoked := false }
    | .ok text =>
      if text = "" then
        { exit := .ok 0, networkCalls := 0, outFile := w.preOutFile,
          synthesisInvoked := false }
      else
        let r := stream_audio w.preOutFile w.openExc w.events w.streamFault
        match r.outcome with
        | .ok true =>
          { exit := .ok 0, networkCalls := 1, outFile := r.file,
            synthesisInvoked := true }
        | .ok false =>
          { exit := .ok 1, networkCalls := 1, outFile := r.file,
            synthesisInvoked := true }
        | .error e =>
          { exit := .error e, networkCalls := 1, outFile := r.file,
            synthesisInvoked := true }

/-- Model of `main` (lines 192-246): with `--list-voices` the lister runs and
`main` returns (exit 0) whatever the remote query did, short of an
exiting exception; otherwise the conversion branch runs. -/
def run_main (listVoices : Bool) (query : Except PyExc (List Voice))
    (w : ConvWorld) (rate volume pitch : String) : MainResult :=
  if listVoices then
    match list_available_voices "es-" query with
    | .ok _ =>
      { exit := .ok 0, networkCalls := 0, outFile := w.preOutFile,
        synthesisInvoked := false }
    | .error e =>
      { exit := .error e, networkCalls := 0, outFile := w.preOutFile,
        synthesisInvoked := false }
  else run_conversion w rate volume pitch

/-! ### The spec-side format predicate for the validator claims -/

/-- The format the specification prescribes for `rate`/`volume`
(`suffix = pctSuffix`) and `pitch` (`suffix = hzSuffix`): a sign
(`+` or `-`) followed by one or more decimal digits followed exactly by
the suffix. -/
def SpecFormat (suffix : List Char) (cs : List Char) : Prop :=
  ∃ sign ds, (sign = '+' ∨ sign = '-') ∧ ds ≠ [] ∧
    (∀ c ∈ ds, c.isDigit = true) ∧ cs = sign :: (ds ++ suffix)

/-- The format the code actually accepts: the spec format, optionally
followed by one trailing newline (Python's `$`). -/
def SpecFormatNl (suffix : List Char) (cs : List Char) : Prop :=
  SpecFormat suffix cs ∨ SpecFormat (suffix ++ ['\n']) cs

/-! ### Lemmas about the streaming loop -/

/-- Running the loop over a pure audio trace produces the concatenation
of the payloads and the sum of their lengths. -/
theorem loopChunks_audio (payloads : List (List Nat)) :
    loopChunks [] 0 (payloads.map SessionEvent.audio) =
      (payloads.flatten, (payloads.map List.length).sum) := by
  induction payloads with
  | nil => simp [loopChunks]
  | cons d rest ih =>
    simp only [List.map_cons, loopChunks, List.nil_append, Nat.zero_add]
    rw [loopChunks_eq, ih]
    simp

/-- Running the loop over a pure error-chunk trace writes nothing. -/
theorem loopChunks_errors (msgs : List String) :
    loopChunks [] 0 (msgs.map SessionEvent.error) = ([], 0) := by
  induction msgs with
  | nil => simp [loopChunks]
  | cons m rest ih => simpa [loopChunks] using ih

/-! ### Claim theorems for the streaming session -/

/-- C1: a session over a finite stream of N audio chunks with payloads
s₁…sₙ and no session-level fault writes the payloads in arrival order:
the final file content is the concatenation s₁‖…‖sₙ, its byte length
(and the session's byte counter) is |s₁|+…+|sₙ|, and the session
returns success (`True`). -/
theorem stream_audio_success (payloads : List (List Nat))
    (pre : Option (List Nat)) :
    (stream_audio pre none (payloads.map SessionEvent.audio) none).outcome =
        .ok true ∧
    (stream_audio pre none (payloads.map SessionEvent.audio) none).file =
        some payloads.flatten ∧
    payloads.flatten.length = (payloads.map List.length).sum ∧
    (stream_audio pre none (payloads.map SessionEvent.audio) none).totalBytes =
        (payloads.map List.length).sum := by
  simp [stream_audio, loopChunks_audio, List.length_flatten]

/-- C2: a session whose stream raises a network/protocol fault
(`NoAudioReceived`, `UnexpectedResponse`, `WebSocketError`) deletes the
output file — whatever chunks had been written before the fault — and
returns failure (`False`). -/
theorem stream_audio_network_fault (pre : Option (List Nat))
    (events : List SessionEvent) (e : PyExc)
    (h : e.isNetworkFault = true) :
    (stream_audio pre none events (some e)).outcome = .ok false ∧
    (stream_audio pre none events (some e)).file = none := by
  simp [stream_audio, handleSessionExc, h]

theorem stream_audio_network_fault_witness :
    PyExc.noAudioReceived.isNetworkFault = true ∧
    (stream_audio (some [1]) none [SessionEvent.audio [7, 8]]
        (some PyExc.noAudioReceived)).outcome = .ok false ∧
    (stream_audio (some [1]) none [SessionEvent.audio [7, 8]]
        (some PyExc.noAudioReceived)).file = none :=
  ⟨rfl, stream_audio_network_fault (some [1]) [SessionEvent.audio [7, 8]]
    PyExc.noAudioReceived rfl⟩

/-- C3: a session whose stream raises an ordinary fault outside the
network/protocol class returns failure (`False`) but does not delete
the output file: it remains with exactly the bytes written before the
fault. -/
theorem stream_audio_unexpected_fault (pre : Option (List Nat))
    (events : List SessionEvent) (e : PyExc)
    (h1 : e.isNetworkFault = false) (h2 : e.isExiting = false) :
    (stream_audio pre none events (some e)).outcome = .ok false ∧
    (stream_audio pre none events (some e)).file =
      some (loopChunks [] 0 events).1 := by
  simp [stream_audio, handleSessionExc, h1, h2]

theorem stream_audio_unexpected_fault_witness :
    (stream_audio none none [SessionEvent.audio [1, 2], SessionEvent.error "x"]
        (some (PyExc.otherError "disk full"))).outcome = .ok false ∧
    (stream_audio none none [SessionEvent.audio [1, 2], SessionEvent.error "x"]
        (some (PyExc.otherError "disk full"))).file = some [1, 2] := by
  have h := stream_audio_unexpected_fault none
    [SessionEvent.audio [1, 2], SessionEvent.error "x"]
    (PyExc.otherError "disk full") rfl rfl
  exact ⟨h.1, h.2.trans (by rfl)⟩

/-- C4: a session whose stream yields only advisory error chunks (no
audio, no session-level fault) is not aborted: the whole stream is
consumed, the session returns success (`True`), and the output file
exists with zero bytes. -/
theorem stream_audio_only_error_chunks (msgs : List String)
    (pre : Option (List Nat)) :
    (stream_audio pre none (msgs.map SessionEvent.error) none).outcome =
        .ok true ∧
    (stream_audio pre none (msgs.map SessionEvent.error) none).file =
        some [] ∧
    (stream_audio pre none (msgs.map SessionEvent.error) none).totalBytes =
        0 := by
  simp [stream_audio, loopChunks_errors]

/-- C10: the session never lets an ordinary (non-exiting) exception
escape: for any fault while opening the output file or while consuming
the stream, it returns a boolean — `False` whenever a fault occurred —
and the file handle is closed on every exit path. -/
theorem stream_audio_no_escape (pre : Option (List Nat))
    (openExc : Option PyExc) (events : List SessionEvent)
    (streamFault : Option PyExc)
    (h1 : Option.all (fun e => !e.isExiting) openExc = true)
    (h2 : Option.all (fun e => !e.isExiting) streamFault = true) :
    (∃ b, (stream_audio pre openExc events streamFault).outcome = .ok b) ∧
    (stream_audio pre openExc events streamFault).handleOpen = false ∧
    ((openExc ≠ none ∨ streamFault ≠ none) →
      (stream_audio pre openExc events streamFault).outcome = .ok false) := by
  cases openExc with
  | some e =>
    simp only [Option.all_some, Bool.not_eq_true'] at h1
    cases hn : e.isNetworkFault <;>
      simp [stream_audio, handleSessionExc, h1, hn]
  | none =>
    cases streamFault with
    | none => simp [stream_audio]
    | some e =>
      simp only [Option.all_some, Bool.not_eq_true'] at h2
      cases hn : e.isNetworkFault <;>
        simp [stream_audio, handleSessionExc, h2, hn]

theorem stream_audio_no_escape_witness :
    (∃ b, (stream_audio none none [SessionEvent.audio [5]]
        (some (PyExc.valueError "boom"))).outcome = .ok b) ∧
    (stream_audio none none [SessionEvent.audio [5]]
        (some (PyExc.valueError "boom"))).handleOpen = false ∧
    (((none : Option PyExc) ≠ none ∨
        (some (PyExc.valueError "boom") : Option PyExc) ≠ none) →
      (stream_audio none none [SessionEvent.audio [5]]
        (some (PyExc.valueError "boom"))).outcome = .ok false) :=
  stream_audio_no_escape none none [SessionEvent.audio [5]]
    (some (PyExc.valueError "boom")) rfl rfl

/-! ### Equivalence of the regex model with the format predicate -/

/-- Pattern `\d+S$` matches exactly the strings of the form
digits-then-suffix, with the optional trailing newline. -/
theorem digitsThenSuffix_iff (suffix : List Char) (cs : List Char) :
    digitsThenSuffix suffix cs = true ↔
      ∃ ds, ds ≠ [] ∧ (∀ c ∈ ds, c.isDigit = true) ∧
        (cs = ds ++ suffix ∨ cs = ds ++ (suffix ++ ['\n'])) := by
  induction cs with
  | nil =>
    simp only [digitsThenSuffix, Bool.false_eq_true, false_iff]
    rintro ⟨ds, hne, -, h | h⟩ <;>
      (cases ds with
       | nil => exact hne rfl
       | cons a t => simp at h)
  | cons c rest ih =>
    simp only [digitsThenSuffix, Bool.and_eq_true, Bool.or_eq_true, beq_iff_eq]
    constructor
    · rintro ⟨hdig, (h | h) | h⟩
      · exact ⟨[c], by simp, by simpa using hdig, Or.inl (by simp [h])⟩
      · exact ⟨[c], by simp, by simpa using hdig, Or.inr (by simp [h])⟩
      · obtain ⟨ds, hne, hds, hcs⟩ := ih.mp h
        refine ⟨c :: ds, by simp, ?_, ?_⟩
        · intro x hx
          rcases List.mem_cons.mp hx with hx | hx
          · rw [hx]; exact hdig
          · exact hds x hx
        · rcases hcs with h1 | h1
          · exact Or.inl (by simp [h1])
          · exact Or.inr (by simp [h1])
    · rintro ⟨ds, hne, hds, hcs⟩
      cases ds with
      | nil => exact absurd rfl hne
      | cons a t =>
        have ha : a.isDigit = true := hds a (List.mem_cons_self a t)
        rcases hcs with h1 | h1 <;>
          (simp only [List.cons_append, List.cons.injEq] at h1
           obtain ⟨rfl, hrest⟩ := h1)
        · refine ⟨ha, ?_⟩
          cases t with
          | nil => exact Or.inl (Or.inl (by simpa using hrest))
          | cons b t2 =>
            refine Or.inr (ih.mpr ⟨b :: t2, by simp, ?_, Or.inl hrest⟩)
            intro x hx
            exact hds x (List.mem_cons_of_mem _ hx)
        · refine ⟨ha, ?_⟩
          cases t with
          | nil => exact Or.inl (Or.inr (by simpa using hrest))
          | cons b t2 =>
            refine Or.inr (ih.mpr ⟨b :: t2, by simp, ?_, Or.inr hrest⟩)
            intro x hx
            exact hds x (List.mem_cons_of_mem _ hx)

/-- The Boolean `re.match` model agrees with the format predicate: the
regex accepts exactly the prescribed format up to one trailing
newline. -/
theorem re_match_iff (suffix : List Char) (cs : List Char) :
    re_match suffix cs = true ↔ SpecFormatNl suffix cs := by
  cases cs with
  | nil =>
    simp only [re_match, Bool.false_eq_true, false_iff, SpecFormatNl,
      SpecFormat]
    rintro (⟨sign, ds, -, -, -, h⟩ | ⟨sign, ds, -, -, -, h⟩) <;> simp at h
  | cons c rest =>
    simp only [re_match, Bool.and_eq_true, Bool.or_eq_true, beq_iff_eq,
      digitsThenSuffix_iff, SpecFormatNl, SpecFormat]
    constructor
    · rintro ⟨hsign, ds, hne, hds, h | h⟩
      · exact Or.inl ⟨c, ds, hsign, hne, hds, by simp [h]⟩
      · exact Or.inr ⟨c, ds, hsign, hne, hds, by simp [h]⟩
    · rintro (⟨sign, ds, hsign, hne, hds, hcs⟩ | ⟨sign, ds, hsign, hne, hds, hcs⟩) <;>
        (simp only [List.cons.injEq] at hcs
         obtain ⟨rfl, hrest⟩ := hcs)
      · exact ⟨hsign, ds, hne, hds, Or.inl hrest⟩
      · exact ⟨hsign, ds, hne, hds, Or.inr hrest⟩

/-! ### Claim theorems for the parameter validator -/

/-- C5 counterexample: the value `"+10%\n"` is not of the form
sign-digits-`%` (it ends in a newline), yet `validate_voice_params`
accepts it, because Python's `$` also matches just before a trailing
newline.  So the validator does not accept *exactly* the strings of
the prescribed format. -/
theorem validate_accepts_trailing_newline :
    validate_voice_params "+10%\n" "+0%" "+0Hz" = .ok () ∧
      ¬ SpecFormat pctSuffix ("+10%\n".data) := by
  refine ⟨by decide, ?_⟩
  rintro ⟨sign, ds, -, -, -, hcs⟩
  have h2 : (sign :: (ds ++ pctSuffix)).getLast? = some '%' := by
    have h3 : sign :: (ds ++ pctSuffix) = (sign :: ds) ++ ['%'] := by
      simp [pctSuffix]
    rw [h3, List.getLast?_concat]
  rw [← hcs] at h2
  have h1 : ("+10%\n".data).getLast? = some '\n' := by decide
  rw [h1] at h2
  simp at h2

/-- C5 (amended): `validate_voice_params` accepts exactly the triples
where rate and volume are a sign (`+` or `-`) followed by one or more
digits followed by `%`, and pitch is a sign followed by one or more
digits followed by `Hz` — in each case up to one optional trailing
newline, which Python's `$` tolerates; for every other triple it raises
a `ValueError` naming the first offending parameter (checked in the
order rate, volume, pitch) together with an example of the correct
format. -/
theorem validate_voice_params_spec (rate volume pitch : String) :
    (validate_voice_params rate volume pitch = .ok () ↔
      (SpecFormatNl pctSuffix rate.data ∧ SpecFormatNl pctSuffix volume.data ∧
        SpecFormatNl hzSuffix pitch.data)) ∧
    (¬ SpecFormatNl pctSuffix rate.data →
      validate_voice_params rate volume pitch =
        .error { param := "rate", value := rate, help := rateHelp }) ∧
    (SpecFormatNl pctSuffix rate.data → ¬ SpecFormatNl pctSuffix volume.data →
      validate_voice_params rate volume pitch =
        .error { param := "volume", value := volume, help := volumeHelp }) ∧
    (SpecFormatNl pctSuffix rate.data → SpecFormatNl pctSuffix volume.data →
      ¬ SpecFormatNl hzSuffix pitch.data →
      validate_voice_params rate volume pitch =
        .error { param := "pitch", value := pitch, help := pitchHelp }) := by
  rw [← re_match_iff pctSuffix rate.data, ← re_match_iff pctSuffix volume.data,
    ← re_match_iff hzSuffix pitch.data]
  cases hR : re_match pctSuffix rate.data <;>
    cases hV : re_match pctSuffix volume.data <;>
      cases hP : re_match hzSuffix pitch.data <;>
        simp [validate_voice_params, hR, hV, hP]

theorem validate_voice_params_spec_witness :
    SpecFormatNl pctSuffix ("+10%".data) ∧
      SpecFormatNl pctSuffix ("+0%".data) ∧
      SpecFormatNl hzSuffix ("+0Hz".data) :=
  ((validate_voice_params_spec "+10%" "+0%" "+0Hz").1).mp (by decide)

/-! ### Claim theorems for the orchestrator -/

/-- C6: in conversion mode, when the validator rejects the rate,
volume, or pitch string, `main` opens no synthesis connection — the
`ValueError` is raised before `stream_audio` (and the `Communicate`
object inside it) is reached — and the process exits with code 1. -/
theorem main_invalid_params_no_network (w : ConvWorld)
    (rate volume pitch : String) (err : ValidationError)
    (h : validate_voice_params rate volume pitch = .error err) :
    (run_conversion w rate volume pitch).networkCalls = 0 ∧
    (run_conversion w rate volume pitch).synthesisInvoked = false ∧
    (run_conversion w rate volume pitch).exit = .ok 1 := by
  simp [run_conversion, h]

theorem main_invalid_params_no_network_witness :
    (run_conversion ⟨true, .ok ["hola"], none, none, [], none⟩
        "10%" "+0%" "+0Hz").networkCalls = 0 ∧
    (run_conversion ⟨true, .ok ["hola"], none, none, [], none⟩
        "10%" "+0%" "+0Hz").synthesisInvoked = false ∧
    (run_conversion ⟨true, .ok ["hola"], none, none, [], none⟩
        "10%" "+0%" "+0Hz").exit = .ok 1 :=
  main_invalid_params_no_network ⟨true, .ok ["hola"], none, none, [], none⟩
    "10%" "+0%" "+0Hz" { param := "rate", value := "10%", help := rateHelp }
    (by decide)

/-- C7: the process exit code is 0 when the conversion pipeline
succeeds, and 1 for every validation error, every (ordinary)
extraction error, and every synthesis-session failure (the session
returning `False`). -/
theorem main_exit_codes (w : ConvWorld) (rate volume pitch : String) :
    (∀ err, validate_voice_params rate volume pitch = .error err →
      (run_conversion w rate volume pitch).exit = .ok 1) ∧
    (∀ e, validate_voice_params rate volume pitch = .ok () →
      extract_clean_text w.fileExists w.reader = .error e →
      e.isExiting = false →
      (run_conversion w rate volume pitch).exit = .ok 1) ∧
    (∀ text, validate_voice_params rate volume pitch = .ok () →
      extract_clean_text w.fileExists w.reader = .ok text → text ≠ "" →
      (stream_audio w.preOutFile w.openExc w.events w.streamFault).outcome =
        .ok false →
      (run_conversion w rate volume pitch).exit = .ok 1) ∧
    (∀ text, validate_voice_params rate volume pitch = .ok () →
      extract_clean_text w.fileExists w.reader = .ok text → text ≠ "" →
      (stream_audio w.preOutFile w.openExc w.events w.streamFault).outcome =
        .ok true →
      (run_conversion w rate volume pitch).exit = .ok 0) := by
  refine ⟨?_, ?_, ?_, ?_⟩
  · intro err h; simp [run_conversion, h]
  · intro e h1 h2 h3; simp [run_conversion, h1, h2, h3]
  · intro text h1 h2 h3 h4; simp [run_conversion, h1, h2, h3, h4]
  · intro text h1 h2 h3 h4; simp [run_conversion, h1, h2, h3, h4]

theorem main_exit_codes_witness :
    (run_conversion ⟨true, .ok ["hola"], none, none,
        [SessionEvent.audio [1, 2]], none⟩ "+0%" "+0%" "+0Hz").exit =
      .ok 0 :=
  (main_exit_codes ⟨true, .ok ["hola"], none, none,
      [SessionEvent.audio [1, 2]], none⟩ "+0%" "+0%" "+0Hz").2.2.2 "hola"
    (by decide) (by decide) (by decide) (by decide)

/-- C8: whatever ordinary failure the remote voice-directory query
raises, `list_available_voices` catches it, logs it, and returns
normally; the `--list-voices` path of `main` then returns, so the
process exits 0. -/
theorem list_voices_never_fails (q : Except PyExc (List Voice))
    (w : ConvWorld) (rate volume pitch : String)
    (h : ∀ e, q = .error e → e.isExiting = false) :
    (∃ rows, list_available_voices "es-" q = .ok rows) ∧
    (run_main true q w rate volume pitch).exit = .ok 0 := by
  cases q with
  | ok voices => simp [list_available_voices, run_main]
  | error e =>
    have he := h e rfl
    simp [list_available_voices, run_main, he]

theorem list_voices_never_fails_witness :
    (∃ rows, list_available_voices "es-"
        (.error (PyExc.otherError "connection lost")) = .ok rows) ∧
    (run_main true (.error (PyExc.otherError "connection lost"))
        ⟨true, .ok [], none, none, [], none⟩ "+0%" "+0%" "+0Hz").exit =
      .ok 0 :=
  list_voices_never_fails (.error (PyExc.otherError "connection lost"))
    ⟨true, .ok [], none, none, [], none⟩ "+0%" "+0%" "+0Hz"
    (fun e he => by injection he with h2; rw [← h2]; rfl)

/-- C9: when extraction succeeds but yields the empty string, `main`
logs a warning and returns before any synthesis: the process exits 0,
`stream_audio` is never invoked, and the output file is left exactly as
it was (in particular, none is created if none existed). -/
theorem main_empty_text_exits_zero (w : ConvWorld)
    (rate volume pitch : String)
    (hv : validate_voice_params rate volume pitch = .ok ())
    (he : extract_clean_text w.fileExists w.reader = .ok "") :
    (run_conversion w rate volume pitch).exit = .ok 0 ∧
    (run_conversion w rate volume pitch).synthesisInvoked = false ∧
    (run_conversion w rate volume pitch).outFile = w.preOutFile := by
  simp [run_conversion, hv, he]

theorem main_empty_text_exits_zero_witness :
    (run_conversion ⟨true, .ok [""], none, none, [], none⟩
        "+0%" "+0%" "+0Hz").exit = .ok 0 ∧
    (run_conversion ⟨true, .ok [""], none, none, [], none⟩
        "+0%" "+0%" "+0Hz").synthesisInvoked = false ∧
    (run_conversion ⟨true, .ok [""], none, none, [], none⟩
        "+0%" "+0%" "+0Hz").outFile = none := by
  have h := main_empty_text_exits_zero ⟨true, .ok [""], none, none, [], none⟩
    "+0%" "+0%" "+0Hz" (by decide) (by decide)
  exact ⟨h.1, h.2.1, h.2.2.trans (by rfl)⟩
